import Mathlib

/-!
Verification of the session lifecycle and streaming subsystem of the
clauditorium repository, as a shallow embedding in Lean 4.

The embedding covers:
* the in-memory terminal session store and output broadcaster
  (`session-store.ts`): `addSession`, `getSession`, `deleteSession`,
  `addOutputHandler`, `removeOutputHandler`, `broadcastOutput`;
* the terminal resize HTTP route (`resize/+server.ts`);
* the SDK streaming-session manager (`sdk-session-manager.ts`):
  `startSession`, `continueSession`, `runQuery` (the drain loop),
  `terminateSession`, over an explicit stream of SDK messages;
* the health reconciler (`session-health-checker.ts`):
  `checkSessionHealth` and `markAllSessionsAsCrashed`;
* the discovery pipeline's `parseSessionFile`
  (`claude-session-discovery.ts`).

JavaScript `Map` objects are modelled as insertion-ordered association
lists, `Set` objects of callbacks as lists of handlers, exceptions as
explicit error results, and the asynchronous drain loop as a fold over
the list of messages the stream yields before it ends.
-/

namespace Clauditorium

/-- JavaScript truthiness of an optional string field: `undefined`/absent
and the empty string are falsy, every other string is truthy. -/
def truthy : Option String → Bool
  | none => false
  | some s => !(s == "")

/-- Lookup in a JS `Map` modelled as an insertion-ordered association list
(`Map.get`). -/
def mapGet {α : Type} (m : List (String × α)) (k : String) : Option α :=
  (m.find? fun e => e.1 == k).map fun e => e.2

/-- Key-membership test in a JS `Map` (`Map.has`). -/
def mapContains {α : Type} (m : List (String × α)) (k : String) : Bool :=
  (m.find? fun e => e.1 == k).isSome

/-- `Map.set`: update the entry in place when the key is present
(preserving insertion order), otherwise append a new entry. -/
def mapSet {α : Type} (m : List (String × α)) (k : String) (v : α) :
    List (String × α) :=
  if mapContains m k then m.map fun e => if e.1 == k then (k, v) else e
  else m ++ [(k, v)]

/-- `Map.delete`: remove the entry with the given key. -/
def mapDelete {α : Type} (m : List (String × α)) (k : String) :
    List (String × α) :=
  m.filter fun e => !(e.1 == k)

/-! ## Terminal session store (`session-store.ts`) -/

/-- Geometry of the pseudo-terminal process backing a terminal session
(the part of the `IPty` handle the resize route touches). -/
structure PtyProcess where
  cols : Nat
  rows : Nat
deriving DecidableEq

/-- A subscriber callback registered with the output broadcaster.  A JS
callback is identified by object identity (`hid`) and its behaviour when
invoked is either to return normally or to throw (`throws`), e.g. because
its SSE transport is already closed. -/
structure Handler where
  hid : Nat
  throws : Bool
deriving DecidableEq

/-- `SessionData` of `session-store.ts`: the live handle of a terminal
session, including its set of output handlers (a JS `Set`, modelled as an
insertion-ordered list). -/
structure TermSessionData where
  sessionId : String
  createdAt : Nat
  workingDirectory : String
  process : PtyProcess
  outputHandlers : List Handler
deriving DecidableEq

/-- The in-memory terminal session registry (`const sessions = new Map()`). -/
abbrev TermStore := List (String × TermSessionData)

/-- `addSession`: store the handle with a fresh empty output-handler set
(the source spreads the data and sets `outputHandlers: new Set()`). -/
def addSession (store : TermStore) (sessionId : String)
    (data : TermSessionData) : TermStore :=
  mapSet store sessionId { data with outputHandlers := [] }

/-- `getSession`. -/
def getSession (store : TermStore) (sessionId : String) :
    Option TermSessionData :=
  mapGet store sessionId

/-- `deleteSession`: when present, clear the handler set and remove the
entry; when absent, do nothing. -/
def deleteSession (store : TermStore) (sessionId : String) : TermStore :=
  match mapGet store sessionId with
  | some s =>
      mapDelete (mapSet store sessionId { s with outputHandlers := [] })
        sessionId
  | none => store

/-- `addOutputHandler`: add the callback to the session's handler set when
the session exists; a silent no-op otherwise (a JS `Set` ignores a
duplicate add). -/
def addOutputHandler (store : TermStore) (sessionId : String)
    (handler : Handler) : TermStore :=
  match mapGet store sessionId with
  | some s =>
      mapSet store sessionId
        { s with outputHandlers :=
            if handler ∈ s.outputHandlers then s.outputHandlers
            else s.outputHandlers ++ [handler] }
  | none => store

/-- `removeOutputHandler`: remove the callback from the session's handler
set when the session exists; a silent no-op otherwise. -/
def removeOutputHandler (store : TermStore) (sessionId : String)
    (handler : Handler) : TermStore :=
  match mapGet store sessionId with
  | some s =>
      mapSet store sessionId
        { s with outputHandlers :=
            s.outputHandlers.filter fun h => !(h == handler) }
  | none => store

/-- Invoke a list of handlers in order with one output chunk, exactly as
`session.outputHandlers.forEach(handler => handler(data))` does: each
handler that returns normally records the delivery `(hid, data)`; the
first handler that throws aborts the iteration and the exception
propagates (second component `true`).  No handler is ever removed here. -/
def runHandlers (data : String) : List Handler → List (Nat × String) × Bool
  | [] => ([], false)
  | h :: hs =>
      if h.throws then ([], true)
      else
        let r := runHandlers data hs
        ((h.hid, data) :: r.1, r.2)

/-- `broadcastOutput`: look the session up and run every handler with the
chunk.  Returns the delivery log, whether an exception escaped the
`forEach` loop, and the (unmodified) store. -/
def broadcastOutput (store : TermStore) (sessionId : String)
    (data : String) : (List (Nat × String) × Bool) × TermStore :=
  match mapGet store sessionId with
  | some s => (runHandlers data s.outputHandlers, store)
  | none => (([], false), store)

/-- An HTTP response of the resize route: status code and body text. -/
structure HttpResponse where
  statusCode : Nat
  body : String
deriving DecidableEq

/-- The `POST` handler of the resize route: 404 when no live handle is
registered for the identifier; 500 when the request body cannot be
parsed; otherwise forward the geometry to the process when both `cols`
and `rows` are truthy (nonzero) and reply `OK` — the geometry write is a
no-op when either is zero. -/
def resizePOST (store : TermStore) (sessionId : String)
    (body : Option (Nat × Nat)) : HttpResponse × TermStore :=
  match mapGet store sessionId with
  | none => (⟨404, "Session not found"⟩, store)
  | some session =>
      match body with
      | none => (⟨500, "Failed to resize session"⟩, store)
      | some (cols, rows) =>
          if cols != 0 && rows != 0 then
            (⟨200, "OK"⟩, mapSet store sessionId
              { session with process := ⟨cols, rows⟩ })
          else (⟨200, "OK"⟩, store)

/-! ## Persisted session records (`session-db.ts` over the drizzle schema) -/

/-- Status values actually written by the server code.  The schema comment
documents `active | inactive | terminated | crashed`; the SDK manager also
writes the string `completed` into the text column. -/
inductive SessionStatus where
  | active
  | inactive
  | terminated
  | crashed
  | completed
deriving DecidableEq

/-- The SDK-specific metadata blob `createSession` stores
(`{ source, prompt, maxTurns, continueFrom }`). -/
structure SdkMeta where
  source : String
  prompt : String
  maxTurns : Nat
  continueFrom : Option String
deriving DecidableEq

/-- A persisted session record (the fields of `SessionData` in
`session-db.ts` that the verified components read or write). -/
structure SessionRecord where
  sessionId : String
  recName : String
  createdAt : Nat
  lastActiveAt : Nat
  status : SessionStatus
  workingDirectory : String
  hasBackendProcess : Bool
  useContinueFlag : Bool
  canReinitialize : Bool
  claudeSessionId : Option String
  isClaudeSession : Bool
  metadata : Option SdkMeta
deriving DecidableEq

/-- The durable store: the rows of the `sessions` table. -/
abbrev Db := List SessionRecord

/-- A `Partial<SessionData>` argument to `updateSession`: exactly the
fields that function copies into its update when they are not
`undefined`. -/
structure UpdatePatch where
  recName : Option String := none
  status : Option SessionStatus := none
  lastActiveAt : Option Nat := none
  hasBackendProcess : Option Bool := none
  useContinueFlag : Option Bool := none
  canReinitialize : Option Bool := none
  metadata : Option (Option SdkMeta) := none
deriving DecidableEq

/-- Apply an update patch to one row, field by field. -/
def applyPatch (r : SessionRecord) (u : UpdatePatch) : SessionRecord :=
  { r with
    recName := u.recName.getD r.recName
    status := u.status.getD r.status
    lastActiveAt := u.lastActiveAt.getD r.lastActiveAt
    hasBackendProcess := u.hasBackendProcess.getD r.hasBackendProcess
    useContinueFlag := u.useContinueFlag.getD r.useContinueFlag
    canReinitialize := u.canReinitialize.getD r.canReinitialize
    metadata := u.metadata.getD r.metadata }

/-- `updateSession`: `UPDATE sessions SET ... WHERE sessionId = ?` applied
to every matching row. -/
def updateSession (db : Db) (sessionId : String) (u : UpdatePatch) : Db :=
  db.map fun r => if r.sessionId == sessionId then applyPatch r u else r

/-- First row with the given identifier (`SELECT ... WHERE sessionId = ?
LIMIT 1`). -/
def dbGet (db : Db) (sessionId : String) : Option SessionRecord :=
  db.find? fun r => r.sessionId == sessionId

/-- History rows (`session_history` table). -/
inductive HistoryDirection where
  | input
  | output
deriving DecidableEq

structure HistoryEntry where
  sessionId : String
  timestamp : Nat
  direction : HistoryDirection
  content : String
deriving DecidableEq

/-! ## SDK streaming session manager (`sdk-session-manager.ts`) -/

/-- The shape of an `SDKMessage` as far as the drain loop inspects it: a
`system` message may carry a `session_id` field (the external Claude
session token), an `assistant` message carries the identifiers of its
`tool_use` content blocks, and every other message is opaque. -/
inductive SDKMessage where
  | system (sessionIdField : Option String)
  | assistant (toolUseIds : List String)
  | other (tag : String)
deriving DecidableEq

/-- Stand-in for `JSON.stringify(message)` used when persisting a message
as a history row. -/
def serializeMessage : SDKMessage → String
  | .system sid => "system:" ++ sid.getD ""
  | .assistant ids => "assistant:" ++ String.intercalate "," ids
  | .other tag => tag

/-- `ActiveSdkSession`: the in-memory live handle of a streaming session.
`aborted` models the state of the handle's `AbortController`. -/
structure ActiveSdkSession where
  sessionId : String
  createdAt : Nat
  workingDirectory : String
  messages : List SDKMessage
  isCompleted : Bool
  claudeSessionId : Option String
  isPaused : Bool
  pendingToolApprovals : List (String × Bool)
  aborted : Bool
deriving DecidableEq

/-- How the message stream produced by the SDK's `query` ends: the
`for await` loop either runs off the end normally, or the next `await`
raises an error (in particular an `AbortError` after the session's
abort controller has been triggered). -/
inductive StreamEnd where
  | normal
  | errored (message : String)
deriving DecidableEq

/-- The stream of a single `query` call: the messages it yields before
it ends, and the way it ends. -/
structure QueryStream where
  yielded : List SDKMessage
  ending : StreamEnd
deriving DecidableEq

/-- The per-message body of the drain loop: push the message onto the
handle's list, learn the external session token from a truthy
`session_id` on a `system` message, and for an `assistant` message with
tool uses record each one as pending (`false`) and set `isPaused`. -/
def processMessage (s : ActiveSdkSession) (m : SDKMessage) :
    ActiveSdkSession :=
  let s := { s with messages := s.messages ++ [m] }
  let s :=
    match m with
    | .system sid =>
        if truthy sid then { s with claudeSessionId := some (sid.getD "") }
        else s
    | _ => s
  match m with
  | .assistant toolUses =>
      if toolUses.isEmpty then s
      else
        { s with
          pendingToolApprovals :=
            toolUses.foldl (fun mp tid => mapSet mp tid false)
              s.pendingToolApprovals
          isPaused := true }
  | _ => s

/-- One drain step: process the message and append the corresponding
output history row. -/
def drainStep (now : Nat) (acc : ActiveSdkSession × List HistoryEntry)
    (m : SDKMessage) : ActiveSdkSession × List HistoryEntry :=
  let s := processMessage acc.1 m
  (s, acc.2 ++ [⟨s.sessionId, now, .output, serializeMessage m⟩])

/-- The outcome of `runQuery`: the final handle state, the updated
persisted rows and history, and the error the function rethrows at the
end of its `catch` block (if the stream errored). -/
structure RunQueryResult where
  handle : ActiveSdkSession
  db : Db
  history : List HistoryEntry
  thrown : Option String
deriving DecidableEq

/-- `runQuery`: when resuming, clear the in-memory message list first;
drain every yielded message; on normal stream end mark the handle
completed and persist status `completed` with `hasBackendProcess` false;
on a stream error mark the handle completed, persist status `crashed`
with `hasBackendProcess` false, and rethrow the error.

The `prompt` and resume token are consumed by the external `query`
capability; the `stream` argument models the message sequence that
capability returns for them. -/
def runQuery (session : ActiveSdkSession) (prompt : String)
    (resume : Option String) (stream : QueryStream) (db : Db)
    (history : List HistoryEntry) (now : Nat) : RunQueryResult :=
  let session := if resume.isSome then { session with messages := [] }
    else session
  let drained := stream.yielded.foldl (drainStep now) (session, history)
  let session := drained.1
  let history := drained.2
  match stream.ending with
  | .normal =>
      let session := { session with isCompleted := true }
      let db := updateSession db session.sessionId
        { status := some .completed, hasBackendProcess := some false,
          lastActiveAt := some now }
      ⟨session, db, history, none⟩
  | .errored e =>
      let session := { session with isCompleted := true }
      let db := updateSession db session.sessionId
        { status := some .crashed, hasBackendProcess := some false,
          lastActiveAt := some now }
      ⟨session, db, history, some e⟩

/-- The `.catch(error => console.error(...))` applied to the
fire-and-forget `runQuery` promise: the rethrown error is logged and
swallowed, so nothing propagates to the caller. -/
def promiseCatch (r : RunQueryResult) : RunQueryResult :=
  { r with thrown := none }

/-- The whole in-memory and durable state the SDK manager touches. -/
structure SdkState where
  registry : List (String × ActiveSdkSession)
  db : Db
  history : List HistoryEntry
deriving DecidableEq

/-- Arguments of `startSession`. -/
structure StartOptions where
  sessionId : String
  prompt : String
  workingDirectory : String
  maxTurns : Nat
  optName : String
  continueFrom : Option String
deriving DecidableEq

/-- `startSession`: register a fresh handle, insert an `active` record
with `hasBackendProcess` true, then run the drain loop (fire-and-forget
in the source; modelled by running it to completion here).  The third
component of the result is the error that escapes to the caller of
`startSession`, which the `.catch` makes `none` on every input. -/
def startSession (st : SdkState) (opts : StartOptions)
    (stream : QueryStream) (now : Nat) :
    ActiveSdkSession × SdkState × Option String :=
  let sessionData : ActiveSdkSession :=
    { sessionId := opts.sessionId, createdAt := now,
      workingDirectory := opts.workingDirectory, messages := [],
      isCompleted := false, claudeSessionId := none, isPaused := false,
      pendingToolApprovals := [], aborted := false }
  let registry := mapSet st.registry opts.sessionId sessionData
  let rec0 : SessionRecord :=
    { sessionId := opts.sessionId, recName := opts.optName,
      createdAt := now, lastActiveAt := now, status := .active,
      workingDirectory := opts.workingDirectory,
      hasBackendProcess := true, useContinueFlag := false,
      canReinitialize := false, claudeSessionId := none,
      isClaudeSession := false,
      metadata := some ⟨"sdk", opts.prompt, opts.maxTurns,
        opts.continueFrom⟩ }
  let db := st.db ++ [rec0]
  let run := promiseCatch
    (runQuery sessionData opts.prompt opts.continueFrom stream db
      st.history now)
  let registry := mapSet registry opts.sessionId run.handle
  (run.handle, ⟨registry, run.db, run.history⟩, run.thrown)

/-- Errors of the SDK manager, named after the spec's taxonomy.  In the
source they are `throw new Error('Session not found')` and `throw new
Error('No Claude session ID found - cannot continue conversation')`. -/
inductive SdkError where
  | sessionNotFound
  | noResumableSession
deriving DecidableEq

/-- `continueSession`: requires a registered handle carrying a truthy
external session token; clears the completed flag, re-marks the record
`active` with `hasBackendProcess` true and a fresh `lastActiveAt`, and
restarts the drain loop resuming from the token (which clears the
in-memory message list).  On either error the function throws before any
mutation, so the state is returned unchanged. -/
def continueSession (st : SdkState) (sessionId message : String)
    (stream : QueryStream) (now : Nat) :
    Except SdkError Unit × SdkState :=
  match mapGet st.registry sessionId with
  | none => (.error .sessionNotFound, st)
  | some session =>
      if truthy session.claudeSessionId then
        let cid := session.claudeSessionId.getD ""
        let session := { session with isCompleted := false }
        let registry := mapSet st.registry sessionId session
        let db := updateSession st.db sessionId
          { status := some .active, hasBackendProcess := some true,
            lastActiveAt := some now }
        let run := promiseCatch
          (runQuery session message (some cid) stream db st.history now)
        let registry := mapSet registry sessionId run.handle
        (.ok (), ⟨registry, run.db, run.history⟩)
      else (.error .noResumableSession, st)

/-- `terminateSession`: when a handle is registered, abort its
controller, mark it completed, and delete the registry entry; when no
handle is registered, do nothing.  No statement in the body can throw,
and the persisted record is not touched. -/
def terminateSession (st : SdkState) (sessionId : String) : SdkState :=
  match mapGet st.registry sessionId with
  | none => st
  | some session =>
      let session := { session with aborted := true, isCompleted := true }
      let registry := mapSet st.registry sessionId session
      { st with registry := mapDelete registry sessionId }

/-- The cancellation scenario: a caller invokes `terminateSession` while
the session's drain loop is still awaiting its stream; aborting the
controller makes the SDK generator raise an `AbortError` at that next
suspension, which the drain loop's `catch` branch then handles.  The
drain loop still holds a reference to the (now unregistered) handle. -/
def terminateDuringQuery (st : SdkState) (session : ActiveSdkSession)
    (yielded : List SDKMessage) (now : Nat) : SdkState :=
  let st := terminateSession st session.sessionId
  let run := promiseCatch
    (runQuery session "" none ⟨yielded, .errored "AbortError"⟩ st.db
      st.history now)
  { st with db := run.db, history := run.history }

/-! ## Health reconciler (`SessionHealthChecker`) -/

/-- The patch `checkSessionHealth` applies to each stale record. -/
def crashStalePatch (now : Nat) : UpdatePatch :=
  { status := some .crashed, hasBackendProcess := some false,
    canReinitialize := some true, lastActiveAt := some now }

/-- The steady-state reconciliation pass: filter the persisted rows down
to those with status `active` and `hasBackendProcess`, keep the ones
whose identifier is not in the in-memory registry, and mark each of
those `crashed` via `updateSession`. -/
def checkSessionHealth (db : Db) (registryIds : List String) (now : Nat) :
    Db :=
  let staleSessions := (db.filter fun r =>
      r.status == .active && r.hasBackendProcess).filter fun r =>
      !(registryIds.contains r.sessionId)
  staleSessions.foldl
    (fun d r => updateSession d r.sessionId (crashStalePatch now)) db

/-- The patch `markAllSessionsAsCrashed` applies (no `lastActiveAt`). -/
def crashStartupPatch : UpdatePatch :=
  { status := some .crashed, hasBackendProcess := some false,
    canReinitialize := some true }

/-- The startup pass: mark each persisted record with status `active`
and `hasBackendProcess` true as `crashed`.  Note the filter requires
`hasBackendProcess` as well. -/
def markAllSessionsAsCrashed (db : Db) : Db :=
  let activeSessions := db.filter fun r =>
    r.status == .active && r.hasBackendProcess
  activeSessions.foldl
    (fun d r => updateSession d r.sessionId crashStartupPatch) db

/-! ## Discovery pipeline (`parseSessionFile`) -/

/-- A parsed transcript line: the fields of interest of the JSON record,
each possibly absent. -/
structure RawRecord where
  sessionId : Option String
  cwd : Option String
  timestamp : Option String
  version : Option String
deriving DecidableEq

/-- One line of a transcript file after the `JSON.parse` attempt:
`none` when the parse throws (the line is skipped), `some r` otherwise. -/
abbrev TranscriptLine := Option RawRecord

/-- First-scan condition: the record carries a truthy `sessionId`, `cwd`
and `timestamp`. -/
def bearsFullMeta : TranscriptLine → Bool
  | some r => truthy r.sessionId && truthy r.cwd && truthy r.timestamp
  | none => false

/-- Backward-scan (and message-count) condition: the record carries a
truthy `sessionId` and `timestamp`. -/
def bearsTokenTime : TranscriptLine → Bool
  | some r => truthy r.sessionId && truthy r.timestamp
  | none => false

/-- A Discovered Session Summary (the `ClaudeSession` interface). -/
structure ClaudeSession where
  sessionId : String
  filePath : String
  workingDirectory : String
  createdAt : String
  lastActiveAt : String
  messageCount : Nat
  version : Option String
deriving DecidableEq

/-- `parseSessionFile`: scan forward for the first line carrying
`sessionId`, `cwd` and `timestamp` (else give up); scan backward for the
most recent line carrying `sessionId` and `timestamp`, whose values
override the token and last-activity time; count the lines carrying
`sessionId` and `timestamp`. -/
def parseSessionFile (filePath : String) (lines : List TranscriptLine) :
    Option ClaudeSession :=
  if lines.isEmpty then none
  else
    match lines.find? bearsFullMeta with
    | none => none
    | some firstLine =>
        let firstRec := firstLine.getD ⟨none, none, none, none⟩
        let sessionId := firstRec.sessionId.getD ""
        let cwd := firstRec.cwd.getD ""
        let createdAt := firstRec.timestamp.getD ""
        let version := firstRec.version
        let backward := lines.reverse.find? bearsTokenTime
        let mostRecentSessionId :=
          match backward with
          | some l => (l.getD ⟨none, none, none, none⟩).sessionId.getD ""
          | none => sessionId
        let lastActiveAt :=
          match backward with
          | some l => (l.getD ⟨none, none, none, none⟩).timestamp.getD ""
          | none => createdAt
        let messageCount := (lines.filter bearsTokenTime).length
        some
          { sessionId := mostRecentSessionId, filePath := filePath,
            workingDirectory := cwd, createdAt := createdAt,
            lastActiveAt := lastActiveAt, messageCount := messageCount,
            version := version }

/-! ## Helper lemmas -/

theorem mapGet_mapSet_self {α : Type} (m : List (String × α)) (k : String)
    (v : α) : mapGet (mapSet m k v) k = some v := by
  cases hfind : (m.find? fun e => e.1 == k) with
  | some e0 =>
      have hcont : mapContains m k = true := by simp [mapContains, hfind]
      have hk := List.find?_some hfind
      have hcomp : ((fun e : String × α => e.1 == k) ∘
          fun e => if e.1 == k then (k, v) else e) =
          fun e : String × α => e.1 == k := by
        funext e
        by_cases he : (e.1 == k) = true <;> simp [Function.comp, he]
      have hk' : e0.1 = k := by simpa using hk
      simp only [mapGet, mapSet, hcont, if_true, List.find?_map, hcomp,
        hfind]
      simp [hk']
  | none =>
      have hcont : mapContains m k = false := by simp [mapContains, hfind]
      simp [mapGet, mapSet, mapContains, hcont, hfind, List.find?_append]

theorem mapGet_mapDelete_self {α : Type} (m : List (String × α))
    (k : String) : mapGet (mapDelete m k) k = none := by
  have hfind : (mapDelete m k).find? (fun e => e.1 == k) = none := by
    unfold mapDelete
    rw [List.find?_filter, List.find?_eq_none]
    intro x _
    by_cases hx : (x.1 == k) = true <;> simp [hx]
  simp [mapGet, hfind]

theorem runHandlers_all_ok (data : String) (hs : List Handler)
    (h : ∀ x ∈ hs, x.throws = false) :
    runHandlers data hs = (hs.map fun x => (x.hid, data), false) := by
  induction hs with
  | nil => rfl
  | cons a t ih =>
      have ha : a.throws = false := h a (List.mem_cons_self a t)
      have ht : ∀ x ∈ t, x.throws = false := fun x hx =>
        h x (List.mem_cons_of_mem a hx)
      simp [runHandlers, ha, ih ht]

theorem runHandlers_throw_split (data : String) (pre : List Handler)
    (h : Handler) (post : List Handler)
    (hpre : ∀ x ∈ pre, x.throws = false) (hth : h.throws = true) :
    runHandlers data (pre ++ h :: post) =
      (pre.map fun x => (x.hid, data), true) := by
  induction pre with
  | nil => simp [runHandlers, hth]
  | cons a t ih =>
      have ha : a.throws = false := hpre a (List.mem_cons_self a t)
      have ht : ∀ x ∈ t, x.throws = false := fun x hx =>
        hpre x (List.mem_cons_of_mem a hx)
      simp [runHandlers, ha, ih ht]

theorem applyPatch_sessionId (r : SessionRecord) (u : UpdatePatch) :
    (applyPatch r u).sessionId = r.sessionId := rfl

theorem dbGet_updateSession (db : Db) (sid id : String) (u : UpdatePatch) :
    dbGet (updateSession db sid u) id =
      (dbGet db id).map fun r =>
        if r.sessionId == sid then applyPatch r u else r := by
  unfold dbGet updateSession
  rw [List.find?_map]
  have hcomp : ((fun r : SessionRecord => r.sessionId == id) ∘
      fun r => if r.sessionId == sid then applyPatch r u else r) =
      fun r : SessionRecord => r.sessionId == id := by
    funext r
    by_cases hr : (r.sessionId == sid) = true <;>
      simp [Function.comp, hr, applyPatch_sessionId]
  rw [hcomp]

theorem dbGet_foldl_update (u : UpdatePatch) (l : List SessionRecord)
    (d : Db) (id : String) (r : SessionRecord)
    (hnd : (l.map fun s => s.sessionId).Nodup)
    (hget : dbGet d id = some r) (hid : r.sessionId = id) :
    dbGet (l.foldl (fun d s => updateSession d s.sessionId u) d) id =
      if id ∈ l.map (fun s => s.sessionId) then some (applyPatch r u)
      else some r := by
  induction l generalizing d r with
  | nil => simp [hget]
  | cons s t ih =>
      rw [List.map_cons, List.nodup_cons] at hnd
      obtain ⟨hhead, htail⟩ := hnd
      by_cases hs : s.sessionId = id
      · have hbeq : r.sessionId = s.sessionId := hid.trans hs.symm
        have hstep : dbGet (updateSession d s.sessionId u) id =
            some (applyPatch r u) := by
          rw [dbGet_updateSession, hget]
          simp [hbeq]
        have hid2 : (applyPatch r u).sessionId = id := by
          rw [applyPatch_sessionId, hid]
        have hrec := ih (updateSession d s.sessionId u) (applyPatch r u)
          htail hstep hid2
        have hnotin : id ∉ t.map (fun s => s.sessionId) := hs ▸ hhead
        have hcond : id ∈ List.map (fun s => s.sessionId) (s :: t) := by
          rw [List.map_cons, List.mem_cons]
          exact Or.inl hs.symm
        rw [List.foldl_cons, hrec, if_neg hnotin, if_pos hcond]
      · have hbeq : ¬r.sessionId = s.sessionId := fun h =>
          hs ((hid.symm.trans h).symm)
        have hstep : dbGet (updateSession d s.sessionId u) id = some r := by
          rw [dbGet_updateSession, hget]
          simp [hbeq]
        have hrec := ih (updateSession d s.sessionId u) r htail hstep hid
        have hcond : id ∈ List.map (fun s => s.sessionId) (s :: t) ↔
            id ∈ List.map (fun s => s.sessionId) t := by
          rw [List.map_cons, List.mem_cons]
          constructor
          · rintro (h | h)
            · exact absurd h.symm hs
            · exact h
          · exact Or.inr
        rw [List.foldl_cons, hrec]
        by_cases hm : id ∈ t.map (fun s => s.sessionId)
        · rw [if_pos hm, if_pos (hcond.mpr hm)]
        · rw [if_neg hm, if_neg (fun h => hm (hcond.mp h))]

theorem terminateSession_absent (st : SdkState) (sid : String)
    (h : mapGet st.registry sid = none) : terminateSession st sid = st := by
  simp only [terminateSession, h]

/-! ## Claim theorems -/

/-- C1, counterexample: in a store whose session `s` has two subscribers,
the first of which throws, `broadcastOutput` delivers to nobody, the
exception escapes the publish call (second component `true`), and the
store — including the throwing subscriber — is unchanged.  This refutes
the claim that publish never raises, silently removes a throwing
subscriber, and still delivers to every remaining subscriber. -/
theorem broadcastOutput_throwing_subscriber_escapes :
    broadcastOutput
      [("s", { sessionId := "s", createdAt := 0, workingDirectory := "/w",
               process := ⟨80, 24⟩,
               outputHandlers := [⟨0, true⟩, ⟨1, false⟩] })]
      "s" "chunk" =
      (([], true),
       [("s", { sessionId := "s", createdAt := 0, workingDirectory := "/w",
                process := ⟨80, 24⟩,
                outputHandlers := [⟨0, true⟩, ⟨1, false⟩] })]) := by
  decide

/-- C1, amended: `broadcastOutput` invokes the registered subscribers in
order with the chunk.  When no subscriber throws, every subscriber
receives the chunk and the call returns normally.  When a subscriber
throws, the exception propagates out of the publish call, the subscribers
before it (in registration order) have received the chunk, the
subscribers after it do not, and no subscriber is removed (the store is
returned unchanged in all cases). -/
theorem broadcastOutput_delivery_and_throw
    (store : TermStore) (sessionId data : String) (sd : TermSessionData)
    (hget : getSession store sessionId = some sd) :
    ((∀ x ∈ sd.outputHandlers, x.throws = false) →
      broadcastOutput store sessionId data =
        ((sd.outputHandlers.map fun x => (x.hid, data), false), store)) ∧
    (∀ pre h post, sd.outputHandlers = pre ++ h :: post →
      (∀ x ∈ pre, x.throws = false) → h.throws = true →
      broadcastOutput store sessionId data =
        ((pre.map fun x => (x.hid, data), true), store)) := by
  have hget' : mapGet store sessionId = some sd := hget
  constructor
  · intro hok
    simp only [broadcastOutput, hget']
    rw [runHandlers_all_ok data sd.outputHandlers hok]
  · intro pre h post hsplit hpre hth
    simp only [broadcastOutput, hget']
    rw [hsplit, runHandlers_throw_split data pre h post hpre hth]

/-- C1, witness for the amended theorem: a concrete store with
subscribers 5 (ok), 6 (throws), 7 (ok); publishing delivers to 5 only and
the exception escapes with the store unchanged. -/
theorem broadcastOutput_delivery_and_throw_witness :
    broadcastOutput
      [("s", { sessionId := "s", createdAt := 0, workingDirectory := "/w",
               process := ⟨80, 24⟩,
               outputHandlers := [⟨5, false⟩, ⟨6, true⟩, ⟨7, false⟩] })]
      "s" "x" =
      (([(5, "x")], true),
       [("s", { sessionId := "s", createdAt := 0, workingDirectory := "/w",
                process := ⟨80, 24⟩,
                outputHandlers := [⟨5, false⟩, ⟨6, true⟩, ⟨7, false⟩] })]) := by
  have h := (broadcastOutput_delivery_and_throw
    [("s", { sessionId := "s", createdAt := 0, workingDirectory := "/w",
             process := ⟨80, 24⟩,
             outputHandlers := [⟨5, false⟩, ⟨6, true⟩, ⟨7, false⟩] })]
    "s" "x"
    { sessionId := "s", createdAt := 0, workingDirectory := "/w",
      process := ⟨80, 24⟩,
      outputHandlers := [⟨5, false⟩, ⟨6, true⟩, ⟨7, false⟩] }
    (by decide)).2 [⟨5, false⟩] ⟨6, true⟩ [⟨7, false⟩]
    (by decide) (by decide) (by decide)
  exact h

/-- C6, counterexample: calling the resize route for an identifier with
no live handle in the registry answers HTTP 404 `Session not found` — an
error, not a successful no-op.  This refutes the claim that a resize for
a session with no live process succeeds as a no-op. -/
theorem resizePOST_unregistered_is_404 :
    resizePOST [] "s" (some (80, 24)) =
      (⟨404, "Session not found"⟩, []) := by
  decide

/-- C6, amended: when a live handle is registered, the resize route
forwards the geometry to the process (when both `cols` and `rows` are
nonzero; with a zero value the write is skipped) and answers `OK`; when
no live handle is registered for the identifier, the route answers 404
`Session not found` and leaves the store unchanged. -/
theorem resizePOST_behavior (store : TermStore) (sessionId : String)
    (cols rows : Nat) :
    (mapGet store sessionId = none →
      resizePOST store sessionId (some (cols, rows)) =
        (⟨404, "Session not found"⟩, store)) ∧
    (∀ sd, mapGet store sessionId = some sd →
      (cols ≠ 0 → rows ≠ 0 →
        resizePOST store sessionId (some (cols, rows)) =
          (⟨200, "OK"⟩, mapSet store sessionId
            { sd with process := ⟨cols, rows⟩ })) ∧
      (cols = 0 ∨ rows = 0 →
        resizePOST store sessionId (some (cols, rows)) =
          (⟨200, "OK"⟩, store))) := by
  constructor
  · intro hnone
    simp only [resizePOST, hnone]
  · intro sd hsome
    constructor
    · intro hc hr
      simp only [resizePOST, hsome]
      simp [hc, hr]
    · intro hzero
      simp only [resizePOST, hsome]
      rcases hzero with hz | hz <;> simp [hz]

/-- C6, witness: with a registered handle, resizing to 100×50 succeeds
and stores the new geometry. -/
theorem resizePOST_behavior_witness :
    resizePOST
      [("s", { sessionId := "s", createdAt := 0, workingDirectory := "/w",
               process := ⟨80, 24⟩, outputHandlers := [] })]
      "s" (some (100, 50)) =
      (⟨200, "OK"⟩,
       [("s", { sessionId := "s", createdAt := 0, workingDirectory := "/w",
                process := ⟨100, 50⟩, outputHandlers := [] })]) := by
  have h := ((resizePOST_behavior
    [("s", { sessionId := "s", createdAt := 0, workingDirectory := "/w",
             process := ⟨80, 24⟩, outputHandlers := [] })]
    "s" 100 50).2
    { sessionId := "s", createdAt := 0, workingDirectory := "/w",
      process := ⟨80, 24⟩, outputHandlers := [] }
    (by decide)).1 (by decide) (by decide)
  exact h.trans (by decide)

/-- C7: `terminateSession` never leaves a live registry entry for the
identifier, calling it twice in a row gives the same state as calling it
once, and calling it on an identifier absent from the registry leaves
the state untouched.  The body performs only an abort-controller signal
and map mutations, none of which can throw. -/
theorem terminateSession_idempotent (st : SdkState) (sessionId : String) :
    mapGet (terminateSession st sessionId).registry sessionId = none ∧
    terminateSession (terminateSession st sessionId) sessionId =
      terminateSession st sessionId ∧
    (mapGet st.registry sessionId = none →
      terminateSession st sessionId = st) := by
  have h1 : mapGet (terminateSession st sessionId).registry sessionId =
      none := by
    cases hget : mapGet st.registry sessionId with
    | none => simp [terminateSession, hget]
    | some s =>
        simp only [terminateSession, hget]
        exact mapGet_mapDelete_self _ _
  exact ⟨h1, terminateSession_absent _ _ h1,
    fun h => terminateSession_absent _ _ h⟩

/-- C7, witness: terminating the one registered session empties the
registry, and a second call (or a call on an unknown identifier) is a
no-op. -/
theorem terminateSession_idempotent_witness :
    mapGet (terminateSession
      { registry := [("s", { sessionId := "s", createdAt := 0,
                             workingDirectory := "/w", messages := [],
                             isCompleted := false, claudeSessionId := none,
                             isPaused := false, pendingToolApprovals := [],
                             aborted := false })],
        db := [], history := [] } "s").registry "s" = none ∧
    mapGet ({ registry := [], db := [], history := [] } :
      SdkState).registry "s" = none ∧
    terminateSession { registry := [], db := [], history := [] } "s" =
      { registry := [], db := [], history := [] } := by
  refine ⟨(terminateSession_idempotent _ "s").1, by decide, ?_⟩
  exact (terminateSession_idempotent
    { registry := [], db := [], history := [] } "s").2.2 (by decide)

/-- C10: for an identifier with no entry in the registry,
`addOutputHandler` and `removeOutputHandler` return the store exactly
unchanged (they raise nothing and record nothing), and because
`addSession` installs a fresh empty handler set, a publish after the
session is later registered delivers to no subscriber — in particular
never to the callback subscribed before registration. -/
theorem outputHandler_noop_when_unregistered (store : TermStore)
    (sessionId : String) (handler : Handler) (d : TermSessionData)
    (chunk : String) (hnone : getSession store sessionId = none) :
    addOutputHandler store sessionId handler = store ∧
    removeOutputHandler store sessionId handler = store ∧
    (broadcastOutput
      (addSession (addOutputHandler store sessionId handler) sessionId d)
      sessionId chunk).1 = ([], false) := by
  have hnone' : mapGet store sessionId = none := hnone
  have hadd : addOutputHandler store sessionId handler = store := by
    simp only [addOutputHandler, hnone']
  have hrem : removeOutputHandler store sessionId handler = store := by
    simp only [removeOutputHandler, hnone']
  refine ⟨hadd, hrem, ?_⟩
  rw [hadd]
  have hreg : mapGet (addSession store sessionId d) sessionId =
      some { d with outputHandlers := [] } := by
    unfold addSession
    exact mapGet_mapSet_self _ _ _
  simp only [broadcastOutput, hreg]
  rfl

/-- C10, witness: in the empty store, subscribing callback 3 for `s`
stores nothing, and after `s` is registered a publish delivers to
nobody. -/
theorem outputHandler_noop_when_unregistered_witness :
    addOutputHandler [] "s" ⟨3, false⟩ = [] ∧
    removeOutputHandler [] "s" ⟨3, false⟩ = [] ∧
    (broadcastOutput
      (addSession (addOutputHandler [] "s" ⟨3, false⟩) "s"
        { sessionId := "s", createdAt := 0, workingDirectory := "/w",
          process := ⟨80, 24⟩, outputHandlers := [] })
      "s" "out").1 = ([], false) :=
  outputHandler_noop_when_unregistered [] "s" ⟨3, false⟩
    { sessionId := "s", createdAt := 0, workingDirectory := "/w",
      process := ⟨80, 24⟩, outputHandlers := [] }
    "out" (by decide)

theorem processMessage_sessionId (s : ActiveSdkSession)
    (m : SDKMessage) : (processMessage s m).sessionId = s.sessionId := by
  cases m <;> simp only [processMessage] <;> split <;> rfl

theorem processMessage_messages_length (s : ActiveSdkSession)
    (m : SDKMessage) :
    (processMessage s m).messages.length = s.messages.length + 1 := by
  cases m <;> simp only [processMessage] <;> (try split) <;> simp

theorem processMessage_isCompleted (s : ActiveSdkSession)
    (m : SDKMessage) :
    (processMessage s m).isCompleted = s.isCompleted := by
  cases m <;> simp only [processMessage] <;> (try split) <;> rfl

theorem drain_sessionId (now : Nat) (msgs : List SDKMessage) :
    ∀ (s : ActiveSdkSession) (h : List HistoryEntry),
      (msgs.foldl (drainStep now) (s, h)).1.sessionId = s.sessionId := by
  induction msgs with
  | nil => intro s h; rfl
  | cons m t ih =>
      intro s h
      rw [List.foldl_cons]
      show (t.foldl (drainStep now) (drainStep now (s, h) m)).1.sessionId =
        s.sessionId
      rw [show drainStep now (s, h) m = (processMessage s m,
        h ++ [⟨(processMessage s m).sessionId, now, .output,
              serializeMessage m⟩]) from rfl]
      rw [ih]
      exact processMessage_sessionId s m

theorem drain_messages_length (now : Nat) (msgs : List SDKMessage) :
    ∀ (s : ActiveSdkSession) (h : List HistoryEntry),
      (msgs.foldl (drainStep now) (s, h)).1.messages.length =
        s.messages.length + msgs.length := by
  induction msgs with
  | nil => intro s h; rfl
  | cons m t ih =>
      intro s h
      rw [List.foldl_cons]
      show (t.foldl (drainStep now) (drainStep now (s, h) m)).1.messages.length = _
      rw [show drainStep now (s, h) m = (processMessage s m,
        h ++ [⟨(processMessage s m).sessionId, now, .output,
              serializeMessage m⟩]) from rfl]
      rw [ih, processMessage_messages_length]
      simp [List.length_cons]
      omega

theorem promiseCatch_handle (r : RunQueryResult) :
    (promiseCatch r).handle = r.handle := rfl

theorem promiseCatch_db (r : RunQueryResult) :
    (promiseCatch r).db = r.db := rfl

theorem promiseCatch_thrown (r : RunQueryResult) :
    (promiseCatch r).thrown = none := rfl

theorem runQuery_handle_isCompleted (session : ActiveSdkSession)
    (prompt : String) (resume : Option String) (stream : QueryStream)
    (db : Db) (history : List HistoryEntry) (now : Nat) :
    (runQuery session prompt resume stream db history now).handle.isCompleted =
      true := by
  cases stream with
  | mk yielded ending => cases ending <;> rfl

theorem runQuery_thrown (session : ActiveSdkSession) (prompt : String)
    (resume : Option String) (yielded : List SDKMessage) (db : Db)
    (history : List HistoryEntry) (now : Nat) :
    (runQuery session prompt resume ⟨yielded, .normal⟩ db history
      now).thrown = none ∧
    ∀ e, (runQuery session prompt resume ⟨yielded, .errored e⟩ db history
      now).thrown = some e := by
  exact ⟨rfl, fun e => rfl⟩

theorem runQuery_sessionId_start (session : ActiveSdkSession)
    (resume : Option String) :
    (if resume.isSome then { session with messages := [] }
     else session).sessionId = session.sessionId := by
  split <;> rfl

theorem runQuery_db_normal (session : ActiveSdkSession) (prompt : String)
    (resume : Option String) (yielded : List SDKMessage) (db : Db)
    (history : List HistoryEntry) (now : Nat) :
    (runQuery session prompt resume ⟨yielded, .normal⟩ db history
      now).db =
      updateSession db session.sessionId
        { status := some .completed, hasBackendProcess := some false,
          lastActiveAt := some now } := by
  simp only [runQuery]
  rw [drain_sessionId, runQuery_sessionId_start]

theorem runQuery_db_errored (session : ActiveSdkSession) (prompt : String)
    (resume : Option String) (yielded : List SDKMessage) (e : String)
    (db : Db) (history : List HistoryEntry) (now : Nat) :
    (runQuery session prompt resume ⟨yielded, .errored e⟩ db history
      now).db =
      updateSession db session.sessionId
        { status := some .crashed, hasBackendProcess := some false,
          lastActiveAt := some now } := by
  simp only [runQuery]
  rw [drain_sessionId, runQuery_sessionId_start]

theorem runQuery_messages_length (session : ActiveSdkSession)
    (prompt : String) (resume : Option String)
    (yielded : List SDKMessage) (ending : StreamEnd) (db : Db)
    (history : List HistoryEntry) (now : Nat) :
    (runQuery session prompt resume ⟨yielded, ending⟩ db history
      now).handle.messages.length =
      (if resume.isSome then 0 else session.messages.length) +
        yielded.length := by
  cases ending <;>
    · simp only [runQuery]
      rw [drain_messages_length]
      split <;> rfl

/-- C4: in a steady-state reconciliation pass over rows with distinct
identifiers, every persisted record with status `active` and
`hasBackendProcess` true whose identifier is not in the registry is
rewritten to status `crashed` with `hasBackendProcess` false,
`canReinitialize` true, and `lastActiveAt` refreshed to the pass time;
every `active` record whose identifier is in the registry is left
exactly unchanged. -/
theorem checkSessionHealth_reconciles (db : Db)
    (registryIds : List String) (now : Nat) (id : String)
    (r : SessionRecord) (hnd : (db.map fun s => s.sessionId).Nodup)
    (hget : dbGet db id = some r) :
    (r.status = .active → r.hasBackendProcess = true →
      id ∉ registryIds →
      dbGet (checkSessionHealth db registryIds now) id =
        some { r with
               status := .crashed, hasBackendProcess := false,
               canReinitialize := true, lastActiveAt := now }) ∧
    (r.status = .active → id ∈ registryIds →
      dbGet (checkSessionHealth db registryIds now) id = some r) := by
  have hid : r.sessionId = id := by simpa using List.find?_some hget
  have hmem : r ∈ db := List.mem_of_find?_eq_some hget
  have hsub : List.Sublist ((db.filter fun r =>
      r.status == .active && r.hasBackendProcess).filter fun r =>
      !(registryIds.contains r.sessionId)) db :=
    (List.filter_sublist _).trans (List.filter_sublist _)
  have hndl : (((db.filter fun r =>
      r.status == .active && r.hasBackendProcess).filter fun r =>
      !(registryIds.contains r.sessionId)).map fun s =>
      s.sessionId).Nodup := hnd.sublist (hsub.map _)
  have hfold := dbGet_foldl_update (crashStalePatch now)
    ((db.filter fun r =>
      r.status == .active && r.hasBackendProcess).filter fun r =>
      !(registryIds.contains r.sessionId)) db id r hndl hget hid
  constructor
  · intro hst hbp hnot
    have hrl : r ∈ (db.filter fun r =>
        r.status == .active && r.hasBackendProcess).filter fun r =>
        !(registryIds.contains r.sessionId) := by
      refine List.mem_filter.mpr ⟨List.mem_filter.mpr ⟨hmem, ?_⟩, ?_⟩
      · simp [hst, hbp]
      · simp [hid, hnot]
    have hin : id ∈ ((db.filter fun r =>
        r.status == .active && r.hasBackendProcess).filter fun r =>
        !(registryIds.contains r.sessionId)).map fun s => s.sessionId :=
      hid ▸ List.mem_map_of_mem _ hrl
    simp only [checkSessionHealth]
    rw [hfold, if_pos hin]
    rfl
  · intro hst hreg
    have hnotin : id ∉ ((db.filter fun r =>
        r.status == .active && r.hasBackendProcess).filter fun r =>
        !(registryIds.contains r.sessionId)).map fun s => s.sessionId := by
      intro hmap
      obtain ⟨s, hsl, hsid⟩ := List.mem_map.mp hmap
      have hs2 := (List.mem_filter.mp hsl).2
      rw [hsid] at hs2
      simp at hs2
      exact hs2 hreg
    simp only [checkSessionHealth]
    rw [hfold, if_neg hnotin]

/-- C4, witness: sessions `A` and `B` are both persisted `active` with a
backend process, only `A` is registered; after the pass `A` is unchanged
and `B` is `crashed` with `canReinitialize` true and a refreshed
`lastActiveAt`. -/
theorem checkSessionHealth_reconciles_witness :
    dbGet (checkSessionHealth
      [⟨"A", "A", 0, 0, .active, "/w", true, false, false, none, false,
        none⟩,
       ⟨"B", "B", 0, 0, .active, "/w", true, false, false, none, false,
        none⟩] ["A"] 7) "A" =
      some ⟨"A", "A", 0, 0, .active, "/w", true, false, false, none,
        false, none⟩ ∧
    dbGet (checkSessionHealth
      [⟨"A", "A", 0, 0, .active, "/w", true, false, false, none, false,
        none⟩,
       ⟨"B", "B", 0, 0, .active, "/w", true, false, false, none, false,
        none⟩] ["A"] 7) "B" =
      some ⟨"B", "B", 0, 7, .crashed, "/w", false, false, true, none,
        false, none⟩ := by
  constructor
  · exact (checkSessionHealth_reconciles
      [⟨"A", "A", 0, 0, .active, "/w", true, false, false, none, false,
        none⟩,
       ⟨"B", "B", 0, 0, .active, "/w", true, false, false, none, false,
        none⟩] ["A"] 7 "A"
      ⟨"A", "A", 0, 0, .active, "/w", true, false, false, none, false,
        none⟩ (by decide) (by decide)).2 rfl (by decide)
  · exact (checkSessionHealth_reconciles
      [⟨"A", "A", 0, 0, .active, "/w", true, false, false, none, false,
        none⟩,
       ⟨"B", "B", 0, 0, .active, "/w", true, false, false, none, false,
        none⟩] ["A"] 7 "B"
      ⟨"B", "B", 0, 0, .active, "/w", true, false, false, none, false,
        none⟩ (by decide) (by decide)).1 rfl rfl (by decide)

/-- C5, counterexample: a persisted record with status `active` whose
`hasBackendProcess` flag is already false is left completely untouched
by the startup pass (its status stays `active`), because
`markAllSessionsAsCrashed` filters on `status === 'active' &&
hasBackendProcess`.  This refutes the claim that the startup pass marks
every currently-persisted `active` record as `crashed`. -/
theorem markAllSessionsAsCrashed_skips_flagless :
    markAllSessionsAsCrashed
      [⟨"s", "s", 0, 0, .active, "/w", false, false, false, none, false,
        none⟩] =
      [⟨"s", "s", 0, 0, .active, "/w", false, false, false, none, false,
        none⟩] := by
  decide

/-- C5, amended: over rows with distinct identifiers, the unconditional
startup pass marks every persisted record with status `active` and
`hasBackendProcess` true as `crashed` (clearing `hasBackendProcess`,
setting `canReinitialize` true, leaving `lastActiveAt` as it was); an
`active` record whose `hasBackendProcess` flag is already false is left
unchanged. -/
theorem markAllSessionsAsCrashed_behavior (db : Db) (id : String)
    (r : SessionRecord) (hnd : (db.map fun s => s.sessionId).Nodup)
    (hget : dbGet db id = some r) :
    (r.status = .active → r.hasBackendProcess = true →
      dbGet (markAllSessionsAsCrashed db) id =
        some { r with
               status := .crashed, hasBackendProcess := false,
               canReinitialize := true }) ∧
    (r.hasBackendProcess = false →
      dbGet (markAllSessionsAsCrashed db) id = some r) := by
  have hid : r.sessionId = id := by simpa using List.find?_some hget
  have hmem : r ∈ db := List.mem_of_find?_eq_some hget
  have hndl : ((db.filter fun r =>
      r.status == .active && r.hasBackendProcess).map fun s =>
      s.sessionId).Nodup := hnd.sublist ((List.filter_sublist _).map _)
  have hfold := dbGet_foldl_update crashStartupPatch
    (db.filter fun r => r.status == .active && r.hasBackendProcess)
    db id r hndl hget hid
  constructor
  · intro hst hbp
    have hrl : r ∈ db.filter fun r =>
        r.status == .active && r.hasBackendProcess :=
      List.mem_filter.mpr ⟨hmem, by simp [hst, hbp]⟩
    have hin : id ∈ (db.filter fun r =>
        r.status == .active && r.hasBackendProcess).map fun s =>
        s.sessionId := hid ▸ List.mem_map_of_mem _ hrl
    simp only [markAllSessionsAsCrashed]
    rw [hfold, if_pos hin]
    rfl
  · intro hbp
    have hnotin : id ∉ (db.filter fun r =>
        r.status == .active && r.hasBackendProcess).map fun s =>
        s.sessionId := by
      intro hmap
      obtain ⟨s, hsl, hsid⟩ := List.mem_map.mp hmap
      have heq : s = r := List.inj_on_of_nodup_map hnd
        (List.mem_filter.mp hsl).1 hmem (by rw [hsid, hid])
      have hp := (List.mem_filter.mp hsl).2
      rw [heq] at hp
      simp [hbp] at hp
    simp only [markAllSessionsAsCrashed]
    rw [hfold, if_neg hnotin]

/-- C5, witness for the amended theorem: a flagged `active` record is
marked `crashed` while an `active` record without the flag keeps its
fields, including status `active`. -/
theorem markAllSessionsAsCrashed_behavior_witness :
    dbGet (markAllSessionsAsCrashed
      [⟨"p", "p", 0, 3, .active, "/w", true, false, false, none, false,
        none⟩,
       ⟨"q", "q", 0, 4, .active, "/w", false, false, false, none, false,
        none⟩]) "p" =
      some ⟨"p", "p", 0, 3, .crashed, "/w", false, false, true, none,
        false, none⟩ ∧
    dbGet (markAllSessionsAsCrashed
      [⟨"p", "p", 0, 3, .active, "/w", true, false, false, none, false,
        none⟩,
       ⟨"q", "q", 0, 4, .active, "/w", false, false, false, none, false,
        none⟩]) "q" =
      some ⟨"q", "q", 0, 4, .active, "/w", false, false, false, none,
        false, none⟩ := by
  constructor
  · exact (markAllSessionsAsCrashed_behavior
      [⟨"p", "p", 0, 3, .active, "/w", true, false, false, none, false,
        none⟩,
       ⟨"q", "q", 0, 4, .active, "/w", false, false, false, none, false,
        none⟩] "p"
      ⟨"p", "p", 0, 3, .active, "/w", true, false, false, none, false,
        none⟩ (by decide) (by decide)).1 rfl rfl
  · exact (markAllSessionsAsCrashed_behavior
      [⟨"p", "p", 0, 3, .active, "/w", true, false, false, none, false,
        none⟩,
       ⟨"q", "q", 0, 4, .active, "/w", false, false, false, none, false,
        none⟩] "q"
      ⟨"q", "q", 0, 4, .active, "/w", false, false, false, none, false,
        none⟩ (by decide) (by decide)).2 rfl

/-- C2: whenever `parseSessionFile` produces a summary for a transcript
whose first token-and-timestamp-bearing record carries token `A` and
whose last token-and-timestamp-bearing record carries token `B` with
`A ≠ B`, the summary's token is `B`: the backward scan makes the
last-seen token authoritative. -/
theorem parseSessionFile_last_token_wins (filePath : String)
    (lines : List TranscriptLine) (cs : ClaudeSession)
    (rA rB : RawRecord) (A B : String)
    (hparse : parseSessionFile filePath lines = some cs)
    (hfirst : (lines.filter bearsTokenTime).head? = some (some rA))
    (hA : rA.sessionId = some A)
    (hlast : (lines.filter bearsTokenTime).getLast? = some (some rB))
    (hB : rB.sessionId = some B) (hAB : A ≠ B) :
    cs.sessionId = B := by
  have hback : lines.reverse.find? bearsTokenTime = some (some rB) := by
    rw [← List.filter_getLast?]
    exact hlast
  by_cases hemp : lines.isEmpty
  · exfalso
    simp [parseSessionFile, hemp] at hparse
  · cases hfind : lines.find? bearsFullMeta with
    | none =>
        exfalso
        simp [parseSessionFile, hemp, hfind] at hparse
    | some firstLine =>
        simp only [parseSessionFile, hemp, hfind, hback,
          Bool.false_eq_true, if_false, Option.some.injEq] at hparse
        subst hparse
        simp [hB]

/-- C2, witness: a transcript whose first well-formed record has token
`A` and whose last token-bearing record has token `B`; the produced
summary carries token `B` (with creation data from the first record and
a message count of 2). -/
theorem parseSessionFile_last_token_wins_witness :
    parseSessionFile "f"
      [some ⟨some "A", some "/w", some "t1", none⟩, none,
       some ⟨some "B", none, some "t3", none⟩] =
      some ⟨"B", "f", "/w", "t1", "t3", 2, none⟩ ∧
    (⟨"B", "f", "/w", "t1", "t3", 2, none⟩ : ClaudeSession).sessionId =
      "B" := by
  refine ⟨by decide, ?_⟩
  exact parseSessionFile_last_token_wins "f"
    [some ⟨some "A", some "/w", some "t1", none⟩, none,
     some ⟨some "B", none, some "t3", none⟩]
    ⟨"B", "f", "/w", "t1", "t3", 2, none⟩
    ⟨some "A", some "/w", some "t1", none⟩
    ⟨some "B", none, some "t3", none⟩ "A" "B"
    (by decide) (by decide) rfl (by decide) rfl (by decide)

/-- C3: for a freshly started streaming session, when the stream ends
normally the handle is marked completed, the in-memory message list has
exactly the streamed messages, and the persisted record ends with status
`completed` and `hasBackendProcess` false; when the stream raises, the
persisted record ends with status `crashed` and `hasBackendProcess`
false; in both cases nothing propagates to the caller of `startSession`
(the fire-and-forget `.catch` swallows the rethrown drain-loop error). -/
theorem startSession_drain_terminal_states (st : SdkState)
    (opts : StartOptions) (msgs : List SDKMessage) (e : String)
    (now : Nat) (hfresh : dbGet st.db opts.sessionId = none) :
    (startSession st opts ⟨msgs, .normal⟩ now).1.isCompleted = true ∧
    (startSession st opts ⟨msgs, .normal⟩ now).1.messages.length =
      msgs.length ∧
    dbGet (startSession st opts ⟨msgs, .normal⟩ now).2.1.db
        opts.sessionId =
      some ⟨opts.sessionId, opts.optName, now, now, .completed,
        opts.workingDirectory, false, false, false, none, false,
        some ⟨"sdk", opts.prompt, opts.maxTurns, opts.continueFrom⟩⟩ ∧
    (startSession st opts ⟨msgs, .normal⟩ now).2.2 = none ∧
    dbGet (startSession st opts ⟨msgs, .errored e⟩ now).2.1.db
        opts.sessionId =
      some ⟨opts.sessionId, opts.optName, now, now, .crashed,
        opts.workingDirectory, false, false, false, none, false,
        some ⟨"sdk", opts.prompt, opts.maxTurns, opts.continueFrom⟩⟩ ∧
    (startSession st opts ⟨msgs, .errored e⟩ now).2.2 = none := by
  have hfresh' : st.db.find?
      (fun r => r.sessionId == opts.sessionId) = none := hfresh
  have happ : dbGet (st.db ++
      [(⟨opts.sessionId, opts.optName, now, now, .active,
        opts.workingDirectory, true, false, false, none, false,
        some ⟨"sdk", opts.prompt, opts.maxTurns, opts.continueFrom⟩⟩ :
        SessionRecord)]) opts.sessionId =
      some ⟨opts.sessionId, opts.optName, now, now, .active,
        opts.workingDirectory, true, false, false, none, false,
        some ⟨"sdk", opts.prompt, opts.maxTurns, opts.continueFrom⟩⟩ := by
    unfold dbGet
    rw [List.find?_append, hfresh']
    simp
  refine ⟨?_, ?_, ?_, rfl, ?_, rfl⟩
  · simp only [startSession, promiseCatch_handle]
    rw [runQuery_handle_isCompleted]
  · simp only [startSession, promiseCatch_handle]
    rw [runQuery_messages_length]
    split <;> simp
  · simp only [startSession, promiseCatch_db]
    rw [runQuery_db_normal, dbGet_updateSession, happ]
    simp [applyPatch]
  · simp only [startSession, promiseCatch_db]
    rw [runQuery_db_errored, dbGet_updateSession, happ]
    simp [applyPatch]

/-- C3, witness: a fresh session with prompt "list files" and turn limit
1 whose stream yields a tool-use message and a result message and ends
normally is persisted `completed` without a backend process and its
handle holds both messages; the error variant ends `crashed`; neither
propagates an error to the caller. -/
theorem startSession_drain_terminal_states_witness :
    (startSession ⟨[], [], []⟩
      ⟨"s", "list files", "/w", 1, "SDK Session", none⟩
      ⟨[.assistant ["t1"], .other "result"], .normal⟩ 3).1.isCompleted =
      true ∧
    (startSession ⟨[], [], []⟩
      ⟨"s", "list files", "/w", 1, "SDK Session", none⟩
      ⟨[.assistant ["t1"], .other "result"], .normal⟩
      3).1.messages.length = 2 ∧
    dbGet (startSession ⟨[], [], []⟩
      ⟨"s", "list files", "/w", 1, "SDK Session", none⟩
      ⟨[.assistant ["t1"], .other "result"], .normal⟩ 3).2.1.db "s" =
      some ⟨"s", "SDK Session", 3, 3, .completed, "/w", false, false,
        false, none, false, some ⟨"sdk", "list files", 1, none⟩⟩ ∧
    (startSession ⟨[], [], []⟩
      ⟨"s", "list files", "/w", 1, "SDK Session", none⟩
      ⟨[.assistant ["t1"], .other "result"], .normal⟩ 3).2.2 = none ∧
    dbGet (startSession ⟨[], [], []⟩
      ⟨"s", "list files", "/w", 1, "SDK Session", none⟩
      ⟨[.assistant ["t1"], .other "result"], .errored "boom"⟩
      3).2.1.db "s" =
      some ⟨"s", "SDK Session", 3, 3, .crashed, "/w", false, false,
        false, none, false, some ⟨"sdk", "list files", 1, none⟩⟩ ∧
    (startSession ⟨[], [], []⟩
      ⟨"s", "list files", "/w", 1, "SDK Session", none⟩
      ⟨[.assistant ["t1"], .other "result"], .errored "boom"⟩
      3).2.2 = none :=
  startSession_drain_terminal_states ⟨[], [], []⟩
    ⟨"s", "list files", "/w", 1, "SDK Session", none⟩
    [.assistant ["t1"], .other "result"] "boom" 3 (by decide)

/-- C8: `continueSession` on a registered handle that carries no external
session token fails with `NoResumableSession` and returns the state
exactly unchanged — the check happens before any registry or persistence
mutation. -/
theorem continueSession_no_token_unchanged (st : SdkState)
    (sessionId message : String) (stream : QueryStream) (now : Nat)
    (s : ActiveSdkSession)
    (hreg : mapGet st.registry sessionId = some s)
    (htok : s.claudeSessionId = none) :
    continueSession st sessionId message stream now =
      (.error .noResumableSession, st) := by
  have htr : truthy s.claudeSessionId = false := by rw [htok]; rfl
  simp only [continueSession, hreg, htr]
  rfl

/-- C8, witness: a registered handle without a token; the continue call
fails with `NoResumableSession` and the state (registry, persisted
record, history) is returned untouched. -/
theorem continueSession_no_token_unchanged_witness :
    continueSession
      ⟨[("s", ⟨"s", 0, "/w", [], true, none, false, [], false⟩)],
       [⟨"s", "n", 0, 0, .completed, "/w", false, false, false, none,
         false, none⟩], []⟩ "s" "next turn" ⟨[], .normal⟩ 9 =
      (.error .noResumableSession,
       ⟨[("s", ⟨"s", 0, "/w", [], true, none, false, [], false⟩)],
        [⟨"s", "n", 0, 0, .completed, "/w", false, false, false, none,
          false, none⟩], []⟩) :=
  continueSession_no_token_unchanged
    ⟨[("s", ⟨"s", 0, "/w", [], true, none, false, [], false⟩)],
     [⟨"s", "n", 0, 0, .completed, "/w", false, false, false, none,
       false, none⟩], []⟩ "s" "next turn" ⟨[], .normal⟩ 9
    ⟨"s", 0, "/w", [], true, none, false, [], false⟩ (by decide) rfl

/-- C9, counterexample: a running session is terminated; the abort makes
the stream raise, the drain loop's catch branch runs, and the persisted
record ends with status `crashed` — which is neither `terminated` nor
`completed`.  This refutes the claim that after cancellation the record
ends marked `terminated` or `completed`. -/
theorem terminateDuringQuery_crashed_counterexample :
    dbGet (terminateDuringQuery
      ⟨[("s", ⟨"s", 0, "/w", [], false, some "tok", false, [], false⟩)],
       [⟨"s", "n", 0, 0, .active, "/w", true, false, false, some "tok",
         false, none⟩], []⟩
      ⟨"s", 0, "/w", [], false, some "tok", false, [], false⟩ [] 5).db
      "s" =
      some ⟨"s", "n", 0, 5, .crashed, "/w", false, false, false,
        some "tok", false, none⟩ ∧
    SessionStatus.crashed ≠ SessionStatus.terminated ∧
    SessionStatus.crashed ≠ SessionStatus.completed := by
  refine ⟨by decide, by decide, by decide⟩

/-- C9, amended: after `terminateSession` signals cancellation, the drain
loop handles the resulting abort error through its `catch` branch: the
persisted record ends with status `crashed` and `hasBackendProcess`
false (not `terminated` or `completed`) — in particular it is never left
`active`. -/
theorem terminateDuringQuery_marks_crashed (st : SdkState)
    (session : ActiveSdkSession) (yielded : List SDKMessage) (now : Nat)
    (r : SessionRecord)
    (hget : dbGet st.db session.sessionId = some r) :
    dbGet (terminateDuringQuery st session yielded now).db
        session.sessionId =
      some { r with
             status := .crashed, hasBackendProcess := false,
             lastActiveAt := now } ∧
    ({ r with
       status := SessionStatus.crashed, hasBackendProcess := false,
       lastActiveAt := now } : SessionRecord).status ≠ .active := by
  have hdb : (terminateSession st session.sessionId).db = st.db := by
    cases h : mapGet st.registry session.sessionId <;>
      simp [terminateSession, h]
  have hre : r.sessionId = session.sessionId := by
    simpa using List.find?_some hget
  constructor
  · simp only [terminateDuringQuery, promiseCatch_db]
    rw [runQuery_db_errored, hdb, dbGet_updateSession, hget]
    simp [hre, applyPatch]
  · intro h
    exact SessionStatus.noConfusion h

/-- C9, witness for the amended theorem: a concrete terminated session
whose record ends `crashed` with `hasBackendProcess` false. -/
theorem terminateDuringQuery_marks_crashed_witness :
    dbGet (terminateDuringQuery
      ⟨[("t", ⟨"t", 1, "/w", [], false, some "tok2", false, [], false⟩)],
       [⟨"t", "m", 1, 2, .active, "/w", true, false, true, some "tok2",
         false, none⟩], []⟩
      ⟨"t", 1, "/w", [], false, some "tok2", false, [], false⟩ [] 6).db
      "t" =
      some ⟨"t", "m", 1, 6, .crashed, "/w", false, false, true,
        some "tok2", false, none⟩ :=
  (terminateDuringQuery_marks_crashed
    ⟨[("t", ⟨"t", 1, "/w", [], false, some "tok2", false, [], false⟩)],
     [⟨"t", "m", 1, 2, .active, "/w", true, false, true, some "tok2",
       false, none⟩], []⟩
    ⟨"t", 1, "/w", [], false, some "tok2", false, [], false⟩ [] 6
    ⟨"t", "m", 1, 2, .active, "/w", true, false, true, some "tok2",
      false, none⟩ (by decide)).1

end Clauditorium
